import Mathlib

/-!
Verification of the qpOASES adapter `qpoases_solve_qp` from
`qpsolvers/qpoases_.py` against its natural-language specification.

The adapter is embedded shallowly: numpy vectors become lists of rationals,
the external qpOASES solver becomes an oracle mapping the exact argument
tuple of the `init` call to a return code, an updated working-set-recalculation
count and a primal solution, and warnings become an explicit list in the
result.  The embedding follows the Python source line by line; the solver
itself is opaque, exactly as in the source.
-/

namespace Qpsolvers

/-- A one-dimensional numpy array of doubles, modelled over ℚ. -/
abbrev Vec : Type := List ℚ

/-- A two-dimensional numpy array, as a list of rows. -/
abbrev Mat : Type := List Vec

/-- numpy.vstack: stack matrices vertically by concatenating their rows. -/
def vstack (ms : List Mat) : Mat := ms.flatten

/-- numpy.hstack on one-dimensional arrays: concatenation. -/
def hstack (vs : List Vec) : Vec := vs.flatten

/-- numpy.ones(k). -/
def ones (k : Nat) : Vec := List.replicate k 1

/-- numpy.zeros(n). -/
def zeros (n : Nat) : Vec := List.replicate n 0

/-- Broadcast scalar multiplication `c * v` of numpy. -/
def smulVec (c : ℚ) (v : Vec) : Vec := v.map (fun y => c * y)

/-- qpoases.PyPrintLevel: verbosity levels of qpOASES. -/
inductive PrintLevel
  | NONE
  | LOW
  | MEDIUM
  | HIGH
deriving DecidableEq, Repr

/-- qpoases.PyOptions: solver options object; only the field the adapter
touches is modelled. -/
structure Options where
  printLevel : PrintLevel
deriving DecidableEq, Repr

/-- qpoases.PyReturnValue: return codes of the solver; the adapter only
distinguishes `MAX_NWSR_REACHED`, all other codes are opaque. -/
inductive ReturnValue
  | SUCCESSFUL_RETURN
  | MAX_NWSR_REACHED
  | other (code : Nat)
deriving DecidableEq, Repr

/-- The warnings the adapter can emit via `warnings.warn`. -/
inductive Warning
  | warmStartIgnored
  | maxWSRReached (nWSR : Nat)
deriving DecidableEq, Repr

/-- The exact argument tuple handed to the solver: constructor arguments,
the options set via `setOptions`, and every argument of `init`.
`isB` is true for the bounds-only variant `QProblemB(n)` and false for the
general-constrained variant `QProblem(n, C.shape[0])`; `nC`, `C`, `lb_C` and
`ub_C` are absent for the bounds-only variant. -/
structure InitCall where
  isB : Bool
  n : Nat
  nC : Option Nat
  opts : Options
  P : Mat
  q : Vec
  C : Option Mat
  lb : Option Vec
  ub : Option Vec
  lb_C : Option Vec
  ub_C : Option Vec
  nWSR : Nat
deriving DecidableEq, Repr

/-- The opaque solver: from the init-call arguments, a return code, the
number of working-set recalculations written back into the `nWSR` cell, and
the primal solution that `getPrimalSolution` subsequently reads out. -/
abbrev Oracle : Type := InitCall → ReturnValue × Nat × Vec

/-- Everything observable about one adapter call: the warnings emitted, the
exact solver invocation, the return code of `init`, the vector handed back
to the caller, and the module-level options object after the call. -/
structure Result where
  warnings : List Warning
  call : InitCall
  ret : ReturnValue
  x_opt : Vec
  stAfter : Options
deriving Repr

/-- `__infty = 1e10`, the finite stand-in for −∞ used by the adapter. -/
def __infty : ℚ := 10 ^ 10

/-- The module-level shared options object: `options = Options()` followed by
`options.printLevel = PrintLevel.NONE` at import time. -/
def options : Options := Options.mk PrintLevel.NONE

/-- The constrained path of the adapter: `qp = QProblem(n, C.shape[0])`,
`qp.setOptions(options)`, `qp.init(P, q, C, lb, ub, lb_C, ub_C, nb_wsr)`,
the `MAX_NWSR_REACHED` warning naming `nb_wsr[0]` after the call, then
`qp.getPrimalSolution(x_opt)`. -/
def runQProblem (st : Options) (oracle : Oracle) (warns0 : List Warning)
    (n : Nat) (P : Mat) (q : Vec) (C : Mat)
    (lb ub lb_C ub_C : Option Vec) (nb_wsr : Nat) : Result :=
  let call : InitCall :=
    ⟨false, n, some C.length, st, P, q, some C, lb, ub, lb_C, ub_C, nb_wsr⟩
  let r := oracle call
  let warns1 :=
    if r.1 = ReturnValue.MAX_NWSR_REACHED
    then warns0 ++ [Warning.maxWSRReached r.2.1]
    else warns0
  ⟨warns1, call, r.1, r.2.2, st⟩

/-- Shallow embedding of `qpoases_solve_qp(P, q, G, h, A, b, initvals)`.
The module state `st` is the shared `options` object, threaded explicitly;
the body never writes to it, mirroring the source.  Every branch matches the
Python `if/elif` chain on `G is not None` / `A is not None`.  In the branch
with both constraints the source dereferences `h` and `b` (it would raise on
None there); `Option.getD` stands for that dereference. -/
def qpoases_solve_qp (st : Options) (oracle : Oracle)
    (P : Mat) (q : Vec)
    (G : Option Mat) (h : Option Vec)
    (A : Option Mat) (b : Option Vec)
    (initvals : Option Vec) : Result :=
  let warns0 : List Warning :=
    if initvals.isSome then [Warning.warmStartIgnored] else []
  let n := P.length
  let lb : Option Vec := none
  let ub : Option Vec := none
  let nb_wsr : Nat := 100
  match G, A with
  | some g, none =>
      runQProblem st oracle warns0 n P q g lb ub none h nb_wsr
  | none, some a =>
      runQProblem st oracle warns0 n P q (vstack [a, a]) lb ub h h nb_wsr
  | some g, some a =>
      runQProblem st oracle warns0 n P q (vstack [g, a, a]) lb ub
        (some (hstack [smulVec (-__infty) (ones (h.getD []).length), b.getD []]))
        (some (hstack [h.getD [], b.getD []])) nb_wsr
  | none, none =>
      let call : InitCall :=
        ⟨true, n, none, st, P, q, none, lb, ub, none, none, nb_wsr⟩
      let r := oracle call
      ⟨warns0, call, r.1, r.2.2, st⟩

/-- Number of warm-start-ignored warnings in a warning list. -/
def countWarm : List Warning → Nat
  | [] => 0
  | Warning.warmStartIgnored :: t => countWarm t + 1
  | _ :: t => countWarm t

/-- Number of iteration-cap warnings in a warning list. -/
def countMax : List Warning → Nat
  | [] => 0
  | Warning.maxWSRReached _ :: t => countMax t + 1
  | _ :: t => countMax t

/-- A solver run that succeeds immediately. -/
def okOracle : Oracle := fun c => (ReturnValue.SUCCESSFUL_RETURN, 1, zeros c.n)

/-- A solver run that hits the working-set-recalculation cap. -/
def maxOracle : Oracle := fun c => (ReturnValue.MAX_NWSR_REACHED, c.nWSR, zeros c.n)

/-- A solver run whose initialization fails with an opaque error code. -/
def failOracle : Oracle := fun c => (ReturnValue.other 33, 7, zeros c.n)

/-- Taking as many elements as the first part of a concatenation has yields
that first part. -/
lemma take_append_length (l v : Vec) (k : Nat) (hk : l.length = k) :
    (l ++ v).take k = l := by subst hk; simp

/-- Dropping as many elements as the first part of a concatenation has yields
the second part. -/
lemma drop_append_length (l v : Vec) (k : Nat) (hk : l.length = k) :
    (l ++ v).drop k = v := by subst hk; simp

/-- The conclusion of claim C3: with both G and A given, the constraint
block is `[G; A; A]` with `rows(G) + 2 rows(A)` rows, the upper constraint
bound is the concatenation `[h, b]` whose first `rows(G)` entries are `h`
and whose remainder is `b`, and the lower constraint bound is `rows(G)`
copies of the sentinel `-1e10` followed by `b`. -/
def bothConfigBounds (st : Options) (oracle : Oracle) (P : Mat) (q : Vec)
    (g : Mat) (hv : Vec) (a : Mat) (bv : Vec) (iv : Option Vec) : Prop :=
  let r := qpoases_solve_qp st oracle P q (some g) (some hv) (some a)
    (some bv) iv
  r.call.C = some (g ++ (a ++ a)) ∧
  (g ++ (a ++ a)).length = g.length + 2 * a.length ∧
  r.call.ub_C = some (hv ++ bv) ∧
  (hv ++ bv).take g.length = hv ∧
  (hv ++ bv).drop g.length = bv ∧
  r.call.lb_C = some (List.replicate g.length (-__infty) ++ bv) ∧
  (∀ x ∈ (List.replicate g.length (-__infty) ++ bv).take g.length,
    x = -(10 ^ 10 : ℚ)) ∧
  (List.replicate g.length (-__infty) ++ bv).drop g.length = bv

/-- C3: for every call with both G and A given and h of length rows(G), the
unified constraint block and its bound vectors are exactly as the
specification states: `C = [G; A; A]`, `ub_C = [h, b]`, `lb_C` is rows(G)
sentinels of magnitude 1e10 followed by `b`. -/
theorem C3_both_block (st : Options) (oracle : Oracle) (P : Mat) (q : Vec)
    (g : Mat) (hv : Vec) (a : Mat) (bv : Vec) (iv : Option Vec)
    (hlen : hv.length = g.length) :
    bothConfigBounds st oracle P q g hv a bv iv := by
  unfold bothConfigBounds
  refine ⟨?_, ?_, ?_, ?_, ?_, ?_, ?_, ?_⟩
  · simp [qpoases_solve_qp, runQProblem, vstack]
  · simp [List.length_append]; omega
  · simp [qpoases_solve_qp, runQProblem, hstack]
  · exact take_append_length hv bv g.length hlen
  · exact drop_append_length hv bv g.length hlen
  · simp [qpoases_solve_qp, runQProblem, hstack, smulVec, ones, hlen]
  · intro x hx
    rw [take_append_length _ bv g.length (by simp)] at hx
    have hx2 := List.eq_of_mem_replicate hx
    simpa [__infty] using hx2
  · exact drop_append_length _ bv g.length (by simp)

/-- C3 witness: the theorem instantiated at the concrete both-constraints
call P = [[1,0],[0,1]], q = [0,0], G = [[1,0]], h = [5], A = [[0,1]],
b = [2]. -/
theorem C3_both_block_witness :
    ([(5 : ℚ)] : Vec).length = ([[(1 : ℚ), 0]] : Mat).length ∧
    bothConfigBounds options okOracle [[1, 0], [0, 1]] [0, 0] [[1, 0]] [5]
      [[0, 1]] [2] none :=
  ⟨by decide, C3_both_block options okOracle [[1, 0], [0, 1]] [0, 0]
    [[1, 0]] [5] [[0, 1]] [2] none (by decide)⟩

/-- The conclusion of claim C5: with both G and A given, both constraint
bound vectors passed to `init` have `rows(G) + rows(A)` entries while the
block `C = [G; A; A]` has `rows(G) + 2 rows(A)` rows, so the second copy of
A has no corresponding bound entries. -/
def bothConfigLengths (st : Options) (oracle : Oracle) (P : Mat) (q : Vec)
    (g : Mat) (hv : Vec) (a : Mat) (bv : Vec) (iv : Option Vec) : Prop :=
  let r := qpoases_solve_qp st oracle P q (some g) (some hv) (some a)
    (some bv) iv
  r.call.lb_C.map List.length = some (g.length + a.length) ∧
  r.call.ub_C.map List.length = some (g.length + a.length) ∧
  r.call.C.map List.length = some (g.length + 2 * a.length) ∧
  r.call.nC = some (g.length + 2 * a.length)

/-- C5: for every call with both G (m rows) and A (meq rows) given and
well-shaped h and b, the bound vectors `lb_C` and `ub_C` each have m + meq
entries while `C` has m + 2·meq rows: the last meq rows of `C` are not
covered by either bound vector. -/
theorem C5_bound_length_mismatch (st : Options) (oracle : Oracle) (P : Mat)
    (q : Vec) (g : Mat) (hv : Vec) (a : Mat) (bv : Vec) (iv : Option Vec)
    (hh : hv.length = g.length) (hb : bv.length = a.length) :
    bothConfigLengths st oracle P q g hv a bv iv := by
  unfold bothConfigLengths
  refine ⟨?_, ?_, ?_, ?_⟩ <;>
    simp [qpoases_solve_qp, runQProblem, hstack, smulVec, ones, vstack,
      hh, hb] <;> omega

/-- C5 witness: the theorem instantiated at the concrete both-constraints
call P = [[1,0],[0,1]], q = [0,0], G = [[1,0]], h = [5], A = [[0,1]],
b = [2]. -/
theorem C5_bound_length_mismatch_witness :
    ([(5 : ℚ)] : Vec).length = ([[(1 : ℚ), 0]] : Mat).length ∧
    ([(2 : ℚ)] : Vec).length = ([[(0 : ℚ), 1]] : Mat).length ∧
    bothConfigLengths options okOracle [[1, 0], [0, 1]] [0, 0] [[1, 0]] [5]
      [[0, 1]] [2] none :=
  ⟨by decide, by decide, C5_bound_length_mismatch options okOracle
    [[1, 0], [0, 1]] [0, 0] [[1, 0]] [5] [[0, 1]] [2] none (by decide)
    (by decide)⟩

/-- The conclusion of the amended claim C4: exactly one iteration-cap
warning is emitted, it names the working-set-recalculation count the solver
wrote back, and the primal solution held by the solver is still returned. -/
def capWarningBehavior (st : Options) (oracle : Oracle) (P : Mat) (q : Vec)
    (G : Option Mat) (h : Option Vec) (A : Option Mat) (b : Option Vec)
    (iv : Option Vec) : Prop :=
  let r := qpoases_solve_qp st oracle P q G h A b iv
  countMax r.warnings = 1 ∧
  Warning.maxWSRReached (oracle r.call).2.1 ∈ r.warnings ∧
  r.x_opt = (oracle r.call).2.2

/-- C4 (amended): in the constrained configurations — G or A given — if the
solver reports `MAX_NWSR_REACHED`, the adapter emits exactly one non-fatal
warning naming the working-set-recalculation count written back by the
solver, and still returns the primal solution the solver holds; in the
no-constraints configuration the return status is never examined and no
such warning is emitted (see the counterexample), though the primal is
still returned. -/
theorem C4_cap_warning_constrained (st : Options) (oracle : Oracle)
    (P : Mat) (q : Vec) (G : Option Mat) (h : Option Vec) (A : Option Mat)
    (b : Option Vec) (iv : Option Vec)
    (hc : G.isSome = true ∨ A.isSome = true)
    (hm : (qpoases_solve_qp st oracle P q G h A b iv).ret =
      ReturnValue.MAX_NWSR_REACHED) :
    capWarningBehavior st oracle P q G h A b iv := by
  unfold capWarningBehavior
  cases G <;> cases A
  · simp at hc
  all_goals
    simp only [qpoases_solve_qp, runQProblem] at hm ⊢
  all_goals
    rw [if_pos hm]
  all_goals
    refine ⟨?_, by simp, by first | rfl | trivial⟩
  all_goals
    cases iv <;> simp [countMax]

/-- C4 witness: the amended theorem instantiated at the concrete
inequality-only call P = [[1]], q = [0], G = [[1]], h = [1], with the
solver run that hits the cap. -/
theorem C4_cap_warning_constrained_witness :
    ((some [[(1 : ℚ)]] : Option Mat).isSome = true ∨
      (none : Option Mat).isSome = true) ∧
    (qpoases_solve_qp options maxOracle [[1]] [0] (some [[1]]) (some [1])
      none none none).ret = ReturnValue.MAX_NWSR_REACHED ∧
    capWarningBehavior options maxOracle [[1]] [0] (some [[1]]) (some [1])
      none none none :=
  ⟨Or.inl rfl, by decide, C4_cap_warning_constrained options maxOracle
    [[1]] [0] (some [[1]]) (some [1]) none none none (Or.inl rfl)
    (by decide)⟩

/-- C1: at the failing input (equality-only call with P = [[1]], q = [0],
A = [[1]], b = [1], G and h absent) the adapter does stack A twice, but it
passes `lb_C = none` and `ub_C = none` to the solver: the source reads the
absent `h` for both constraint bounds instead of `b`, so the equality
constraint `A x = b` is dropped entirely rather than encoded as
`b ≤ A x ≤ b` with both bound vectors equal to `b`. -/
theorem C1_equality_bounds_bug :
    (qpoases_solve_qp options okOracle [[1]] [0] none none (some [[1]])
        (some [1]) none).call.C = some [[1], [1]] ∧
    (qpoases_solve_qp options okOracle [[1]] [0] none none (some [[1]])
        (some [1]) none).call.lb_C = none ∧
    (qpoases_solve_qp options okOracle [[1]] [0] none none (some [[1]])
        (some [1]) none).call.ub_C = none ∧
    (qpoases_solve_qp options okOracle [[1]] [0] none none (some [[1]])
        (some [1]) none).call.lb_C ≠ some [1] ∧
    (qpoases_solve_qp options okOracle [[1]] [0] none none (some [[1]])
        (some [1]) none).call.ub_C ≠ some [1] := by
  decide

/-- C2: at the failing input (P = [[1]], q = [0], G = [[1]], h = [1], with a
solver whose `init` fails with an error code other than the iteration cap)
the adapter emits no warning, raises no failure signal, and still hands the
caller a numeric vector read out by `getPrimalSolution`; the return code is
never inspected except for the iteration-cap comparison, contradicting the
contract that a failed initialization must surface as an explicit
no-solution result. -/
theorem C2_failure_not_propagated :
    (qpoases_solve_qp options failOracle [[1]] [0] (some [[1]]) (some [1])
        none none none).ret = ReturnValue.other 33 ∧
    (qpoases_solve_qp options failOracle [[1]] [0] (some [[1]]) (some [1])
        none none none).warnings = [] ∧
    (qpoases_solve_qp options failOracle [[1]] [0] (some [[1]]) (some [1])
        none none none).x_opt = [0] := by
  decide

/-- C4 counterexample: in the no-constraints configuration with a solver run
that reports `MAX_NWSR_REACHED`, the adapter emits no warning at all — the
bounds-only branch never inspects the return value of `init` — refuting the
claim that the iteration-cap warning is emitted in every configuration
including the one dispatched to the bounds-only variant. -/
theorem C4_no_warning_in_bounds_only :
    let r := qpoases_solve_qp options maxOracle [[1]] [0] none none none
      none none
    r.ret = ReturnValue.MAX_NWSR_REACHED ∧ r.warnings = [] := by
  decide

/-- C6: with neither G nor A the adapter builds no constraint block and
constructs the bounds-only variant `QProblemB(n)`; with G or A given it
constructs the general variant `QProblem(n, C.shape[0])` whose second
dimension is the row count of the block it passes; in every configuration
the variable bounds `lb` and `ub` handed to `init` are null. -/
theorem C6_dispatch (st : Options) (oracle : Oracle) (P : Mat) (q : Vec)
    (G : Option Mat) (h : Option Vec) (A : Option Mat) (b : Option Vec)
    (iv : Option Vec) :
    let r := qpoases_solve_qp st oracle P q G h A b iv
    r.call.lb = none ∧ r.call.ub = none ∧ r.call.n = P.length ∧
    r.call.isB = (G.isNone && A.isNone) ∧
    r.call.C.isSome = (G.isSome || A.isSome) ∧
    r.call.nC = r.call.C.map List.length := by
  cases G <;> cases A <;> simp [qpoases_solve_qp, runQProblem]

/-- C8: every call constructs a fresh solver instance, configures it with the
shared silent-verbosity options object, and initializes the iteration cap on
working-set recalculations to exactly 100. -/
theorem C8_options_and_cap (oracle : Oracle) (P : Mat) (q : Vec)
    (G : Option Mat) (h : Option Vec) (A : Option Mat) (b : Option Vec)
    (iv : Option Vec) :
    let r := qpoases_solve_qp options oracle P q G h A b iv
    r.call.opts = options ∧ options.printLevel = PrintLevel.NONE ∧
    r.call.nWSR = 100 := by
  cases G <;> cases A <;> simp [qpoases_solve_qp, runQProblem, options]

/-- C9: in the inequality-only configuration (G and h given, A and b absent)
the constraint block is G itself, the lower constraint bound is null
(unbounded below) and the upper constraint bound is h. -/
theorem C9_inequality_only (st : Options) (oracle : Oracle) (P : Mat)
    (q : Vec) (g : Mat) (hv : Vec) (iv : Option Vec) :
    let r := qpoases_solve_qp st oracle P q (some g) (some hv) none none iv
    r.call.C = some g ∧ r.call.lb_C = none ∧ r.call.ub_C = some hv := by
  simp [qpoases_solve_qp, runQProblem]

/-- C7: supplying warm-start values adds exactly one warm-start-ignored
warning and changes nothing else: the solver invocation, its return code and
the returned solution coincide with those of the same call without
`initvals`, and the number of warm-start warnings without `initvals` is
zero. -/
theorem C7_initvals_ignored (st : Options) (oracle : Oracle) (P : Mat)
    (q : Vec) (G : Option Mat) (h : Option Vec) (A : Option Mat)
    (b : Option Vec) (v : Vec) :
    let r1 := qpoases_solve_qp st oracle P q G h A b (some v)
    let r0 := qpoases_solve_qp st oracle P q G h A b none
    countWarm r1.warnings = 1 ∧ countWarm r0.warnings = 0 ∧
    r1.call = r0.call ∧ r1.ret = r0.ret ∧ r1.x_opt = r0.x_opt := by
  cases G <;> cases A <;>
    simp [qpoases_solve_qp, runQProblem, countWarm] <;>
    (try split) <;> simp [countWarm]

/-- C10: the adapter is effect-free apart from its warnings: the module-level
options state it reads is returned unchanged (it is never written inside the
body), the solver is invoked with exactly that shared state, and the vector
handed back to the caller is exactly the primal solution the solver holds —
the warning bookkeeping influences neither the invocation nor the result. -/
theorem C10_frame (st : Options) (oracle : Oracle) (P : Mat) (q : Vec)
    (G : Option Mat) (h : Option Vec) (A : Option Mat) (b : Option Vec)
    (iv : Option Vec) :
    let r := qpoases_solve_qp st oracle P q G h A b iv
    r.stAfter = st ∧ r.call.opts = st ∧ r.x_opt = (oracle r.call).2.2 ∧
    r.call.P = P ∧ r.call.q = q := by
  cases G <;> cases A <;> simp [qpoases_solve_qp, runQProblem]

end Qpsolvers
